import Mathlib

/-!
Verification development for the porepy simplex-grid topology builder
(`src/grids/simplex.py`) and the hybrid dual virtual element discretization
(`src/src/porepy/numerics/vem/hybrid.py`).

The Python source is shallowly embedded: numpy arrays become `List`s over `ℚ`
(the float arithmetic in the claims under study is exact: copying, zeroing,
sign bookkeeping and equality of identical computations), integer index arrays
become `List ℕ` / `List ℤ`, and scipy sparse matrices are represented through
the positional `(indices, data)` pairs the source builds them from.
-/

set_option linter.unusedVariables false

namespace PorePy

/-! ## Simplex topology builder (`src/grids/simplex.py`) -/

abbrev Pt2 := ℚ × ℚ
abbrev Pt3 := ℚ × ℚ × ℚ
abbrev Tri := ℕ × ℕ × ℕ
abbrev Tet := ℕ × ℕ × ℕ × ℕ

/-- Canonical (sorted) node pair of a triangle edge.  Modelled from the spec:
`utils.setmembership.unique_rows` is not under `src/`; per spec §4.1 step 2 it
assigns every (cell, local-face) occurrence the index of its canonical sorted
face row, so faces are identified here directly by their sorted node tuple. -/
def key2 (a b : ℕ) : ℕ × ℕ := if a ≤ b then (a, b) else (b, a)

/-- Edges of one triangle, in the local order of
`np.hstack((tri[[0, 1]], tri[[1, 2]], tri[[2, 0]]))` (simplex.py lines 58-61),
already canonicalized (`face_nodes.sort(axis=1)`). -/
def triFaceKeys (t : Tri) : List (ℕ × ℕ) :=
  [key2 t.1 t.2.1, key2 t.2.1 t.2.2, key2 t.2.2 t.1]

/-- The raveled cell-face index array
`cell_faces.reshape(num_faces_per_cell, num_cells).ravel(1)` (line 78):
Fortran-order ravel of the reshaped block array, i.e. the cell-major list of
(cell, local-face) occurrences, each represented by its canonical face key. -/
def triOccs (tri : List Tri) : List (ℕ × ℕ) := tri.flatMap triFaceKeys

/-- Index of the first occurrence of `v` in `l` (0 when absent past the end). -/
def firstIdx {α : Type} [DecidableEq α] : List α → α → ℕ
  | [], _ => 0
  | x :: xs, v => if x = v then 0 else firstIdx xs v + 1

/-- The set of indices returned by `np.unique(cell_faces, return_index=True)[1]`
(line 83): for every distinct value of `l`, the index of its first occurrence.
(numpy orders them by sorted unique value; only the set matters here because the
source uses them purely as an index mask `data[sgns] = 1`.) -/
def uniqueFirstIdxs {α : Type} [DecidableEq α] (l : List α) : List ℕ :=
  l.dedup.map (firstIdx l)

/-- The signed data array of `cell_faces` for `TriangleGrid` (lines 82-84):
`data = -np.ones(...)`, then `data[sgns] = 1` at the first-occurrence indices. -/
def occSigns {α : Type} [DecidableEq α] (l : List α) : List ℤ :=
  (List.range l.length).map (fun i => if i ∈ uniqueFirstIdxs l then (1 : ℤ) else -1)

/-- Result of `TriangleGrid.__init__`: the parts of the grid the claims are
about.  `occKeys` and `data` are the positionally aligned `(indices, data)`
arrays of the csc `cell_faces` matrix (3 consecutive entries per cell column). -/
structure TriGridData where
  nodes : List Pt2
  occKeys : List (ℕ × ℕ)
  data : List ℤ
  deriving DecidableEq

/-- `TriangleGrid.__init__(p, tri)` (simplex.py lines 19-89) with connectivity
supplied (no Delaunay fallback).  The points are typed 2-row (`Pt2`), matching
the `p.shape[0] != 2` guard; `assert num_nodes > 2` (line 55) is the only other
failure point before the grid is assembled and is modelled as `none`. -/
def triangleGridInit (p : List Pt2) (tri : List Tri) : Option TriGridData :=
  if 2 < p.length then some ⟨p, triOccs tri, occSigns (triOccs tri)⟩ else none

/-- `TetrahedralGrid.__triple_product` (lines 231-248): per-simplex scalar
triple product `det[v1 - v0, v2 - v0, v3 - v0]` of the edge vectors from
vertex 0.  Out-of-range indices default to the origin (numpy would raise; the
claims only use in-range connectivity). -/
def tripleProduct (p : List Pt3) (t : Tet) : ℚ :=
  let P : ℕ → Pt3 := fun i => p.getD i (0, 0, 0)
  let a := P t.1
  let b := P t.2.1
  let c := P t.2.2.1
  let d := P t.2.2.2
  let dx1 := b.1 - a.1
  let dx2 := c.1 - a.1
  let dx3 := d.1 - a.1
  let dy1 := b.2.1 - a.2.1
  let dy2 := c.2.1 - a.2.1
  let dy3 := d.2.1 - a.2.1
  let dz1 := b.2.2 - a.2.2
  let dz2 := c.2.2 - a.2.2
  let dz3 := d.2.2 - a.2.2
  let crossX := dy1 * dz2 - dy2 * dz1
  let crossY := dz1 * dx2 - dz2 * dx1
  let crossZ := dx1 * dy2 - dx2 * dy1
  dx3 * crossX + dy3 * crossY + dz3 * crossZ

/-- Swap of the first two vertex indices, `t[:2, permute] = t[1::-1, permute]`. -/
def swap01 (t : Tet) : Tet := (t.2.1, t.1, t.2.2.1, t.2.2.2)

/-- `TetrahedralGrid.__permute_nodes` (lines 224-229): every simplex column with
positive triple product has its first two vertex indices swapped, in place, in
the caller-supplied connectivity array. -/
def permuteNodes (p : List Pt3) (ts : List Tet) : List Tet :=
  ts.map (fun t => if 0 < tripleProduct p t then swap01 t else t)

/-- The four triangular faces of one tetrahedron in the local order of
`np.hstack((tet[[1, 0, 2]], tet[[0, 1, 3]], tet[[2, 0, 3]], tet[[1, 2, 3]]))`
(lines 189-192), before canonicalization. -/
def tetFaces (t : Tet) : List (ℕ × ℕ × ℕ) :=
  [(t.2.1, t.1, t.2.2.1),
   (t.1, t.2.1, t.2.2.2),
   (t.2.2.1, t.1, t.2.2.2),
   (t.2.1, t.2.2.1, t.2.2.2)]

/-- Face occurrences in the order of the stacked `face_nodes` rows (the hstack
above, transposed): face-type-major, all cells of type 0 first.  This is the
order in which `sort_ind` (line 193) is laid out. -/
def bmFaceList (ts : List Tet) : List (ℕ × ℕ × ℕ) :=
  (List.range 4).flatMap (fun i => ts.map (fun t => (tetFaces t).getD i (0, 0, 0)))

/-- Face occurrences in cell-major order: the layout of
`cell_faces.reshape(num_faces_per_cell, num_cells).ravel(1)` (line 211), the
index array of the csc `cell_faces` matrix. -/
def cmFaceList (ts : List Tet) : List (ℕ × ℕ × ℕ) := ts.flatMap tetFaces

/-- Sorted node triple: one row of `face_nodes.sort(axis=1)` (line 194),
identifying the canonical face (see `key2` for the `unique_rows` modelling). -/
def sort3 (f : ℕ × ℕ × ℕ) : ℕ × ℕ × ℕ :=
  match f with
  | (a, b, c) =>
    if a ≤ b then
      if b ≤ c then (a, b, c) else if a ≤ c then (a, c, b) else (c, a, b)
    else
      if a ≤ c then (b, a, c) else if b ≤ c then (b, c, a) else (c, b, a)

/-- One row of `sort_ind = np.argsort(face_nodes, axis=1)` (line 193) for a
triple of distinct node indices. -/
def argsort3 (f : ℕ × ℕ × ℕ) : ℕ × ℕ × ℕ :=
  match f with
  | (a, b, c) =>
    if a ≤ b then
      if b ≤ c then (0, 1, 2) else if a ≤ c then (0, 2, 1) else (2, 0, 1)
    else
      if a ≤ c then (1, 0, 2) else if b ≤ c then (1, 2, 0) else (2, 1, 0)

/-- `np.any(np.diff(sort_ind) == 1, axis=1)` for one argsort row (line 216). -/
def diffHasOne (s : ℕ × ℕ × ℕ) : Bool := (s.2.1 = s.1 + 1) || (s.2.2 = s.2.1 + 1)

/-- Sign the tetrahedral builder computes for one face occurrence:
`data = np.ones(...)`, `data[sgn_change] = -1` (lines 215-217). -/
def cscSgn (f : ℕ × ℕ × ℕ) : ℤ := if diffHasOne (argsort3 f) then -1 else 1

/-- The csc `data` array of `TetrahedralGrid.cell_faces`.  The values are the
per-occurrence signs computed from `sort_ind`, which is laid out in
face-type-major order (`bmFaceList`), while the array is consumed positionally
against the cell-major index array (`cmFaceList`) — exactly as in the source,
where `sgn_change` indexes `data` without the `reshape(...).ravel(1)`
reordering applied to `cell_faces` (lines 211, 216-217). -/
def tetCscData (ts : List Tet) : List ℤ := (bmFaceList ts).map cscSgn

/-- The csc index array of `TetrahedralGrid.cell_faces` by canonical face key,
cell-major (4 consecutive entries per cell column). -/
def tetCmKeys (ts : List Tet) : List (ℕ × ℕ × ℕ) := (cmFaceList ts).map sort3

/-- Result of `TetrahedralGrid.__init__`: the parts of the grid the claims are
about, with `cmKeys` and `data` the positionally aligned `(indices, data)`
arrays of the csc `cell_faces` matrix. -/
structure TetGridData where
  nodes : List Pt3
  cmKeys : List (ℕ × ℕ × ℕ)
  data : List ℤ

/-- `TetrahedralGrid.__init__(p, tet)` (lines 168-222) with connectivity
supplied.  Returns, besides the grid, the final states of the caller's
connectivity and point arrays (`__permute_nodes` mutates `tet` in place before
face extraction; `p` is only read).  `assert num_nodes > 3` (line 184) is
modelled as the `none` branch; it precedes the permutation. -/
def tetrahedralGridInit (p : List Pt3) (ts : List Tet) :
    Option TetGridData × List Tet × List Pt3 :=
  if 3 < p.length then
    let ts' := permuteNodes p ts
    (some ⟨p, tetCmKeys ts', tetCscData ts'⟩, ts', p)
  else (none, ts, p)

/-- Sum of one row of the signed cell-face incidence matrix: the sum of the
`data` entries whose aligned csc index equals the face `k` (scipy sums
duplicate triplet entries; across distinct cell columns this is the row sum). -/
def rowSumOf (G : TetGridData) (k : ℕ × ℕ × ℕ) : ℤ :=
  ((G.cmKeys.zip G.data).map (fun q => if q.1 = k then q.2 else 0)).sum

/-- Number of cells of a tetrahedral connectivity whose faces include the
canonical face `k`. -/
def cellsWithFace (ts : List Tet) (k : ℕ × ℕ × ℕ) : ℕ :=
  (ts.filter (fun t => ((tetFaces t).map sort3).contains k)).length

/-- Concrete two-tetrahedron mesh: the unit tetrahedron and its neighbour
across the face `{1, 2, 3}`, a valid (non-overlapping, non-degenerate)
tetrahedral mesh. -/
def demoPts : List Pt3 := [(0, 0, 0), (1, 0, 0), (0, 1, 0), (0, 0, 1), (1, 1, 1)]

def demoTets : List Tet := [(0, 1, 2, 3), (1, 2, 3, 4)]

/-! ### First-occurrence characterization of `uniqueFirstIdxs` -/

lemma firstIdx_lt_length {α : Type} [DecidableEq α] {l : List α} {v : α}
    (h : v ∈ l) : firstIdx l v < l.length := by
  induction l with
  | nil => cases h
  | cons x xs ih =>
    by_cases hx : x = v
    · simp [firstIdx, hx]
    · have hv : v ∈ xs := by
        rcases List.mem_cons.mp h with h1 | h1
        · exact absurd h1.symm hx
        · exact h1
      simp only [firstIdx, if_neg hx, List.length_cons]
      exact Nat.succ_lt_succ (ih hv)

lemma getD_firstIdx {α : Type} [DecidableEq α] {l : List α} {v : α}
    (h : v ∈ l) (d : α) : l.getD (firstIdx l v) d = v := by
  induction l with
  | nil => cases h
  | cons x xs ih =>
    by_cases hx : x = v
    · simp [firstIdx, hx]
    · have hv : v ∈ xs := by
        rcases List.mem_cons.mp h with h1 | h1
        · exact absurd h1.symm hx
        · exact h1
      simp only [firstIdx, if_neg hx]
      exact ih hv

lemma getD_ne_of_lt_firstIdx {α : Type} [DecidableEq α] {l : List α} {v : α}
    {j : ℕ} (hj : j < firstIdx l v) (d : α) : l.getD j d ≠ v := by
  induction l generalizing j with
  | nil => simp [firstIdx] at hj
  | cons x xs ih =>
    by_cases hx : x = v
    · simp [firstIdx, hx] at hj
    · simp only [firstIdx, if_neg hx] at hj
      cases j with
      | zero => simpa using hx
      | succ n => exact ih (Nat.lt_of_succ_lt_succ hj)

lemma firstIdx_eq_of_first {α : Type} [DecidableEq α] {l : List α} {v : α}
    {i : ℕ} (d : α) (hi : i < l.length) (hv : l.getD i d = v)
    (hmin : ∀ j, j < i → l.getD j d ≠ v) : firstIdx l v = i := by
  induction l generalizing i with
  | nil => simp at hi
  | cons x xs ih =>
    cases i with
    | zero =>
      have hx : x = v := by simpa using hv
      simp [firstIdx, hx]
    | succ n =>
      have hx : x ≠ v := by
        have := hmin 0 (Nat.succ_pos n)
        simpa using this
      simp only [firstIdx, if_neg hx]
      have hlen : n < xs.length := Nat.lt_of_succ_lt_succ (by simpa using hi)
      have hv' : xs.getD n d = v := hv
      have hmin' : ∀ j, j < n → xs.getD j d ≠ v := fun j hj =>
        hmin (j + 1) (Nat.succ_lt_succ hj)
      rw [ih hlen hv' hmin']

lemma mem_uniqueFirstIdxs_iff {α : Type} [DecidableEq α] (l : List α) (d : α)
    {i : ℕ} (hi : i < l.length) :
    i ∈ uniqueFirstIdxs l ↔ ∀ j, j < i → l.getD j d ≠ l.getD i d := by
  unfold uniqueFirstIdxs
  rw [List.mem_map]
  constructor
  · rintro ⟨v, hv, rfl⟩
    have hvl : v ∈ l := List.mem_dedup.mp hv
    intro j hj
    rw [getD_firstIdx hvl d]
    exact getD_ne_of_lt_firstIdx hj d
  · intro hfirst
    refine ⟨l.getD i d, ?_, ?_⟩
    · rw [List.mem_dedup, List.getD_eq_getElem l d hi]
      exact List.getElem_mem hi
    · exact firstIdx_eq_of_first d hi rfl hfirst

lemma occSigns_getD {α : Type} [DecidableEq α] (l : List α) {i : ℕ}
    (hi : i < l.length) :
    (occSigns l).getD i 0 = if i ∈ uniqueFirstIdxs l then (1 : ℤ) else -1 := by
  unfold occSigns
  rw [List.getD_eq_getElem _ _ (by simpa using hi), List.getElem_map,
    List.getElem_range]

/-! ### Claims about the topology builder -/

/-- Claim C5 (confirmed): in `TriangleGrid` construction, the signed cell-face
incidence entry of a (cell, local-face) occurrence is `+1` when it is the first
occurrence of its face in the cell-major traversal order of the raveled
occurrence array, and `-1` for every later occurrence of the same face. -/
theorem c5_triangle_first_occurrence_sign (p : List Pt2) (tri : List Tri)
    (G : TriGridData) (hG : triangleGridInit p tri = some G)
    (i : ℕ) (hi : i < G.occKeys.length) :
    G.data.getD i 0 =
      if (∀ j, j < i → G.occKeys.getD j (0, 0) ≠ G.occKeys.getD i (0, 0))
      then (1 : ℤ) else -1 := by
  unfold triangleGridInit at hG
  by_cases hp : 2 < p.length
  · rw [if_pos hp, Option.some.injEq] at hG
    subst hG
    have hi' : i < (triOccs tri).length := hi
    rw [occSigns_getD _ hi']
    exact if_congr (mem_uniqueFirstIdxs_iff (triOccs tri) (0, 0) hi') rfl rfl
  · rw [if_neg hp] at hG
    cases hG

/-- Concrete 2×2-point structured data: two triangles sharing the edge
`{1, 2}`. -/
def pW5 : List Pt2 := [(0, 0), (1, 0), (0, 1), (1, 1)]

def triW5 : List Tri := [(0, 1, 2), (1, 3, 2)]

def GW5 : TriGridData := ⟨pW5, triOccs triW5, occSigns (triOccs triW5)⟩

/-- Witness for C5: in the two-triangle mesh, occurrence 5 (the second
appearance of the shared edge `{1, 2}`) gets sign `-1`. -/
theorem c5_witness :
    triangleGridInit pW5 triW5 = some GW5 ∧ 5 < GW5.occKeys.length ∧
    GW5.data.getD 5 0 =
      if (∀ j, j < 5 → GW5.occKeys.getD j (0, 0) ≠ GW5.occKeys.getD 5 (0, 0))
      then (1 : ℤ) else -1 :=
  ⟨by decide, by decide,
    c5_triangle_first_occurrence_sign pW5 triW5 GW5 (by decide) 5 (by decide)⟩

/-- Points with three columns but only two distinct coordinates. -/
def cexP7 : List Pt2 := [(0, 0), (0, 0), (1, 1)]

def cexTri7 : List Tri := [(0, 1, 2)]

/-- Counterexample for C7: the input has fewer than 3 distinct points, yet the
builder does not fail — `assert num_nodes > 2` only counts point columns, with
multiplicity, and a grid is constructed. -/
theorem c7_counterexample :
    cexP7.dedup.length < 3 ∧ (triangleGridInit cexP7 cexTri7).isSome = true := by
  decide

/-- Claim C7 (corrected): the builders fail (assertion, modelled as `none`)
exactly when the point array has fewer than D+1 point columns — points counted
with multiplicity, not distinctness — and no grid is constructed in that
case. -/
theorem c7_insufficient_points_amended (p : List Pt2) (tri : List Tri)
    (q : List Pt3) (tet : List Tet) :
    (triangleGridInit p tri = none ↔ p.length ≤ 2) ∧
    ((tetrahedralGridInit q tet).1 = none ↔ q.length ≤ 3) := by
  constructor
  · by_cases hp : 2 < p.length
    · simp [triangleGridInit, hp]
    · simp [triangleGridInit, hp]
      omega
  · by_cases hq : 3 < q.length
    · simp [tetrahedralGridInit, hq]
    · simp [tetrahedralGridInit, hq]
      omega

/-- Claim C9 (confirmed): constructing a `TetrahedralGrid` mutates the caller's
connectivity array in place: every simplex with positive triple product has its
first two vertex indices swapped before face extraction, the others are left
alone, and the point array is unchanged. -/
theorem c9_permute_nodes_frame (p : List Pt3) (ts : List Tet)
    (h : 3 < p.length) :
    (∀ j, j < ts.length →
      (tetrahedralGridInit p ts).2.1.getD j (0, 0, 0, 0) =
        (if 0 < tripleProduct p (ts.getD j (0, 0, 0, 0)) then
          swap01 (ts.getD j (0, 0, 0, 0))
         else ts.getD j (0, 0, 0, 0))) ∧
    (tetrahedralGridInit p ts).2.2 = p := by
  have h2 : (tetrahedralGridInit p ts).2 = (permuteNodes p ts, p) := by
    unfold tetrahedralGridInit
    rw [if_pos h]
  rw [h2]
  refine ⟨?_, rfl⟩
  intro j hj
  unfold permuteNodes
  rw [List.getD_eq_getElem _ _ (by simpa using hj), List.getElem_map,
    List.getD_eq_getElem _ _ hj]

/-- Concrete single positively-oriented tetrahedron (triple product `1 > 0`). -/
def pW9 : List Pt3 := [(0, 0, 0), (1, 0, 0), (0, 1, 0), (0, 0, 1)]

def tsW9 : List Tet := [(0, 1, 2, 3)]

/-- Witness for C9: the positively-oriented demo tetrahedron has its first two
vertex indices swapped in the final connectivity state. -/
theorem c9_witness :
    3 < pW9.length ∧ 0 < tsW9.length ∧
    (tetrahedralGridInit pW9 tsW9).2.1.getD 0 (0, 0, 0, 0) =
      (if 0 < tripleProduct pW9 (tsW9.getD 0 (0, 0, 0, 0)) then
        swap01 (tsW9.getD 0 (0, 0, 0, 0))
       else tsW9.getD 0 (0, 0, 0, 0)) :=
  ⟨by decide, by decide,
    (c9_permute_nodes_frame pW9 tsW9 (by decide)).1 0 (by decide)⟩

/-- Claim C1 (code bug): in the two-tetrahedron demo mesh, the canonical face
`{1, 2, 3}` belongs to exactly two cells, yet its row of the signed cell-face
incidence matrix sums to `2`, not `0`: the sign array is computed from
`sort_ind`, which is laid out face-type-major, but consumed against the
cell-major raveled index array, so the two occurrences both receive `+1`. -/
theorem c1_tet_interior_row_sum_not_zero :
    cellsWithFace (tetrahedralGridInit demoPts demoTets).2.1 (1, 2, 3) = 2 ∧
    ((tetrahedralGridInit demoPts demoTets).1.map
      (fun G => rowSumOf G (1, 2, 3))) = some 2 := by
  have h1 : (0 : ℚ) < tripleProduct demoPts (0, 1, 2, 3) := by
    norm_num [tripleProduct, demoPts, List.getD]
  have h2 : (0 : ℚ) < tripleProduct demoPts (1, 2, 3, 4) := by
    norm_num [tripleProduct, demoPts, List.getD]
  have hperm : permuteNodes demoPts demoTets = [(1, 0, 2, 3), (2, 1, 3, 4)] := by
    unfold permuteNodes demoTets
    simp [h1, h2, swap01]
  unfold tetrahedralGridInit
  rw [if_pos (show 3 < demoPts.length by decide)]
  simp only [hperm]
  decide

/-! ## Hybrid dual VEM (`src/src/porepy/numerics/vem/hybrid.py`)

Dense `List`-of-rows matrices over `ℚ` stand in for the numpy arrays; the
sparse global matrix `H` is represented densely, with the triplet-scatter of
the source realized as fold-accumulation (scipy's coo-to-csr conversion sums
duplicate `(row, col)` triplets, which is exactly entrywise accumulation). -/

abbrev Mat := List (List ℚ)

def dotQ (r c : List ℚ) : ℚ := ((r.zip c).map (fun p => p.1 * p.2)).sum

def transposeQ (A : Mat) : Mat :=
  (List.range (A.headD []).length).map (fun j => A.map (fun r => r.getD j 0))

def matMul (A B : Mat) : Mat :=
  let Bt := transposeQ B
  A.map (fun r => Bt.map (fun c => dotQ r c))

def matScale (s : ℚ) (A : Mat) : Mat := A.map (fun r => r.map (fun x => s * x))

def matSub (A B : Mat) : Mat :=
  (A.zip B).map (fun p => (p.1.zip p.2).map (fun q => q.1 - q.2))

def matAdd (A B : Mat) : Mat :=
  (A.zip B).map (fun p => (p.1.zip p.2).map (fun q => q.1 + q.2))

def matHadamard (A B : Mat) : Mat :=
  (A.zip B).map (fun p => (p.1.zip p.2).map (fun q => q.1 * q.2))

def matGet (A : Mat) (i j : ℕ) : ℚ := (A.getD i []).getD j 0

def idMat (n : ℕ) : Mat :=
  (List.range n).map (fun i => (List.range n).map (fun j => if i = j then 1 else 0))

def zerosMat (n m : ℕ) : Mat := List.replicate n (List.replicate m 0)

def onesList (n : ℕ) : List ℚ := List.replicate n 1

def dropIdx {α : Type} (l : List α) (i : ℕ) : List α := l.take i ++ l.drop (i + 1)

/-- Determinant by expansion along the first column (fuel = matrix size). -/
def detFuel : ℕ → Mat → ℚ
  | 0, _ => 1
  | n + 1, A =>
    match A with
    | [] => 1
    | _ :: _ =>
      ((List.range A.length).map (fun i =>
        (-1 : ℚ) ^ i * matGet A i 0 *
          detFuel n ((dropIdx A i).map (fun r => r.drop 1)))).sum

def detQ (A : Mat) : ℚ := detFuel A.length A

/-- `np.linalg.inv` via the adjugate formula.  A singular input (where numpy
raises `LinAlgError`) yields junk entries through division by zero; no claim
under study depends on the singular case. -/
def matInvQ (A : Mat) : Mat :=
  let n := A.length
  let d := detQ A
  (List.range n).map (fun i => (List.range n).map (fun j =>
    (-1 : ℚ) ^ (i + j) * detQ ((dropIdx A j).map (fun r => dropIdx r i)) / d))

/-- `np.linalg.solve A b`, mathematically `A⁻¹ · b` (the source notes both
paths are used: explicit inverse in `matrix_rhs`, `solve` in `computeUP`). -/
def npSolveMat (A b : Mat) : Mat := matMul (matInvQ A) b

/-- A grid "with geometry fields computed" (docstring of `matrix_rhs`): the
topology/geometry attributes and the outputs of the external geometry provider
`cg.map_grid` (`c_centers, f_normals, f_centers`) consumed by the assembler. -/
structure GridH where
  dim : ℕ
  numCells : ℕ
  numFaces : ℕ
  cellFaces : ℕ → ℕ → ℤ
  cellVolumes : ℕ → ℚ
  faceAreas : ℕ → ℚ
  cellDiameters : ℕ → ℚ
  cCenters : ℕ → List ℚ
  fNormals : ℕ → List ℚ
  fCenters : ℕ → List ℚ

/-- `self.ndof(g)`: the number of hybrid degrees of freedom is `g.num_faces`
(hybrid.py lines 19-33). -/
def hybridNdof (g : GridH) : ℕ := g.numFaces

/-- The faces of cell `c` in the order produced by
`faces, cells, sgn = sps.find(g.cell_faces)` sliced with the csc `indptr`
(lines 100, 124-125): scipy's `find` canonicalizes to column-major order with
row indices ascending within each column, so cell `c`'s slice is its incident
faces in increasing face order. -/
def facesOfCell (g : GridH) (c : ℕ) : List ℕ :=
  (List.range g.numFaces).filter (fun f => g.cellFaces f c ≠ 0)

/-- The `(row, col, value)` stream of `sps.find(g.cell_faces)`: cells in
increasing order, faces increasing within each cell. -/
def findTriples (g : GridH) : List (ℕ × ℕ × ℤ) :=
  (List.range g.numCells).flatMap
    (fun c => (facesOfCell g c).map (fun f => (f, c, g.cellFaces f c)))

/-- `sps.linalg.norm(H, np.inf)`: the maximum absolute row sum (line 173).
The `0` seed of the fold is absorbed, every absolute row sum being
nonnegative. -/
def infNorm (H : Mat) : ℚ := (H.map (fun r => (r.map (fun x => |x|)).sum)).foldr max 0

/-- Per-face boundary label of the external `bc` object (spec §6: per-face
label in `{dir, neu}`, case-canonicalized; a face with no boundary condition
is `free`).  `is_dir`/`is_neu` are the corresponding masks. -/
inductive BCLabel
  | dir
  | neu
  | free
  deriving DecidableEq

/-- The external boundary-condition record: `bc` together with the
(lower-cased) `bc_val` value maps, keyed per face.  The source reads them from
two dictionary entries; the claims under study only exercise the case where
the condition and its values are supplied together. -/
structure BCRecord where
  label : ℕ → BCLabel
  dirVal : ℕ → ℚ
  neuVal : ℕ → ℚ

/-- Modelled from the spec: `second_order_tensor.SecondOrderTensor(dim, kxx)`
(not under `src/`; spec §6 describes a rank-2 tensor field indexed by cell,
sliced to the mesh dimension).  `perm i j c` is the `(i, j)` entry of cell
`c`'s tensor: `kxx c` on the diagonal, `0` off it, so `kxx = 1` is the unit
isotropic permeability. -/
structure SecondOrderTensorM where
  perm : ℕ → ℕ → ℕ → ℚ

def secondOrderTensorM (dim : ℕ) (kxx : ℕ → ℚ) : SecondOrderTensorM :=
  ⟨fun i j c => if i = j then kxx c else 0⟩

/-- The `data` dictionary entries consumed by `matrix_rhs`/`computeUP`. -/
structure HybridData where
  k : Option SecondOrderTensorM
  f : Option (ℕ → ℚ)
  bc : Option BCRecord

def permWarning : String := "Permeability not assigned, assumed identity"

def srcWarning : String := "Scalar source not assigned, assumed null"

/-- Default substitution for a missing permeability (lines 91-94 / 210-213):
`SecondOrderTensor(g.dim, np.ones(g.num_cells))`.  Modelled from the spec for
the names resolved through the star import of
`porepy.numerics.mixed_dim.solver` (not under `src/`): the substitution
succeeds and a diagnostic warning is emitted. -/
def dataK (g : GridH) (d : HybridData) : SecondOrderTensorM :=
  match d.k with
  | some t => t
  | none => secondOrderTensorM g.dim (fun _ => 1)

/-- Default substitution for a missing source (lines 96-98 / 215-217):
`np.zeros(g.num_cells)`. -/
def dataF (d : HybridData) : ℕ → ℚ :=
  match d.f with
  | some f0 => f0
  | none => fun _ => 0

/-- The diagnostic warnings emitted by the default substitutions, in source
order (permeability first). -/
def warnList (d : HybridData) : List String :=
  (match d.k with
   | none => [permWarning]
   | some _ => []) ++
  (match d.f with
   | none => [srcWarning]
   | some _ => [])

/-- `k.perm[0:g.dim, 0:g.dim, c]` (line 129). -/
def kSub (g : GridH) (kT : SecondOrderTensorM) (c : ℕ) : Mat :=
  (List.range g.dim).map (fun i => (List.range g.dim).map (fun j => kT.perm i j c))

/-- `weight = np.power(diams, 2 - g.dim)` at cell `c` (line 108). -/
def weightOf (g : GridH) (c : ℕ) : ℚ := g.cellDiameters c ^ ((2 : ℤ) - (g.dim : ℤ))

/-- The external local flux-mass kernel `dual.DualVEM().massHdiv` (spec §6):
arguments `(K, cell_center, cell_volume, face_centers, outward_normals,
weights, diameter, stabilization_weight)`, returning a pair whose first
component is the local matrix `A` (the source discards the second). -/
abbrev MassKernel :=
  Mat → List ℚ → ℚ → Mat → Mat → List ℚ → ℚ → ℚ → Mat × Mat

/-- Accumulate `v` into entry `(i, j)` (one summed coo triplet). -/
def matAddAt (A : Mat) (i j : ℕ) (v : ℚ) : Mat :=
  A.set i ((A.getD i []).set j (matGet A i j + v))

/-- Scatter one cell's local matrix `L` into the global matrix at the
`(faces_loc × faces_loc)` index pairs (lines 155-160), accumulating — scipy
sums duplicate triplets on conversion (line 163). -/
def scatterCell (H : Mat) (fl : List ℕ) (L : Mat) : Mat :=
  (List.range fl.length).foldl
    (fun H2 a =>
      (List.range fl.length).foldl
        (fun H3 b => matAddAt H3 (fl.getD a 0) (fl.getD b 0) (matGet L a b)) H2)
    H

/-- `rhs[faces_loc] += vals` for the pairwise-distinct `faces_loc` of one
cell (lines 151-152). -/
def addAtList (r : List ℚ) (fl : List ℕ) (vals : List ℚ) : List ℚ :=
  (List.range fl.length).foldl
    (fun r2 a =>
      r2.set (fl.getD a 0) (r2.getD (fl.getD a 0) 0 + vals.getD a 0))
    r

/-- The cell loop of `matrix_rhs` (lines 119-163): per cell, the local
saddle-point blocks, static condensation, and the scatter of the hybrid block
`L` and the local right-hand side into the global matrix and `rhs`.  This is
the state of `(H, rhs)` before boundary conditions are applied. -/
def matrixRhsCore (M : MassKernel) (g : GridH) (kT : SecondOrderTensorM)
    (fT : ℕ → ℚ) : Mat × List ℚ :=
  (List.range g.numCells).foldl
    (fun acc c =>
      let H := acc.1
      let rhs := acc.2
      let fl := facesOfCell g c
      let ndof := fl.length
      let K := kSub g kT c
      let normals : Mat :=
        fl.map (fun f => (g.fNormals f).map (fun x => ((g.cellFaces f c : ℚ)) * x))
      let A := (M K (g.cCenters c) (g.cellVolumes c) (fl.map g.fCenters) normals
        (onesList ndof) (g.cellDiameters c) (weightOf g c)).1
      let invA := matInvQ A
      let B : Mat := List.replicate ndof [(-1 : ℚ)]
      let C := idMat ndof
      let S : ℚ := (matGet (matMul (transposeQ B) (matMul invA B)) 0 0)⁻¹
      let L0 := matMul (matMul invA (matMul B (matScale S (transposeQ B)))) invA
      let L := matMul (matMul (transposeQ C) (matSub L0 invA)) C
      let fLoc := fT c * g.cellVolumes c
      let contrib := (matMul (transposeQ C)
        (matMul invA (matMul B [[S * fLoc]]))).map (fun r => r.getD 0 0)
      (scatterCell H fl L, addAtList rhs fl contrib))
    (zerosMat g.numFaces g.numFaces, List.replicate g.numFaces (0 : ℚ))

/-- Boundary-condition application (lines 166-182).  Dirichlet: with `norm`
the infinity norm of the assembled `H`, zero the Dirichlet rows
(`H[bc.is_dir, :] *= 0`), then set the diagonal (`H[is_dir, is_dir] = norm`)
and overwrite `rhs[is_dir] = norm * bc_val`.  Neumann: `sgn` is re-extracted
from `sps.find(g.cell_faces)` keeping, per face, the sign of its first
occurrence (`np.unique(faces, return_index=True)[1]`), and
`sgn * bc_val * face_areas` is added to `rhs[is_neu]`. -/
def applyBC (g : GridH) (bc : BCRecord) (H : Mat) (rhs : List ℚ) :
    Mat × List ℚ :=
  let n := g.numFaces
  let step1 : Mat × List ℚ :=
    if (List.range n).any (fun f => bc.label f = BCLabel.dir) then
      let norm := infNorm H
      let Hz := (List.range n).map (fun i =>
        if bc.label i = BCLabel.dir then (H.getD i []).map (fun x => x * 0)
        else H.getD i [])
      let Hd := (List.range n).map (fun i =>
        if bc.label i = BCLabel.dir then (Hz.getD i []).set i norm
        else Hz.getD i [])
      let r1 := (List.range n).map (fun f =>
        if bc.label f = BCLabel.dir then norm * bc.dirVal f else rhs.getD f 0)
      (Hd, r1)
    else (H, rhs)
  if (List.range n).any (fun f => bc.label f = BCLabel.neu) then
    let sgn1 : ℕ → ℤ := fun f =>
      (((findTriples g).find? (fun tr => tr.1 = f)).map (fun tr => tr.2.2)).getD 0
    let r2 := (List.range n).map (fun f =>
      if bc.label f = BCLabel.neu then
        step1.2.getD f 0 + (sgn1 f : ℚ) * bc.neuVal f * g.faceAreas f
      else step1.2.getD f 0)
    (step1.1, r2)
  else step1

/-- `HybridDualVEM.matrix_rhs` (lines 37-184).  The 0-dimensional branch
returns `sps.identity(self.ndof(g))` with a length-1 zero right-hand side
(lines 84-86).  The second component collects the diagnostic warnings of the
default substitutions. -/
def matrixRhs (M : MassKernel) (g : GridH) (d : HybridData) :
    (Mat × List ℚ) × List String :=
  if g.dim = 0 then ((idMat (hybridNdof g), [(0 : ℚ)]), [])
  else
    let kT := dataK g d
    let fT := dataF d
    let hr := matrixRhsCore M g kT fT
    (match d.bc with
     | none => hr
     | some b => applyBC g b hr.1 hr.2,
     warnList d)

/-- A numpy value returned by `computeUP`: either a python/numpy scalar or a
1-d array. -/
inductive NpVal
  | scalar (q : ℚ)
  | vec (v : List ℚ)
  deriving DecidableEq

/-- `HybridDualVEM.computeUP` (lines 188-264).  The 0-dimensional branch
returns the scalar `0` and `l[0]` (an `IndexError`, modelled `none`, on an
empty hybrid vector).  Otherwise the cells are processed in increasing order
(`np.arange`); per cell the velocity write
`u[faces_loc] = -np.multiply(sgn_loc, solve(A, np.dot(B, p[c]) + np.dot(C, l_loc)))`
assigns a value of shape `(ndof, 1)` into the `(ndof,)` selection
`u[faces_loc]`: numpy only broadcasts that when `ndof = 1` (leading unit axes
of the value may be dropped, a trailing one may not), and raises `ValueError`
otherwise — unlike the corresponding `matrix_rhs` line 151, which flattens
with `[:, 0]`.  The failure is modelled as `none`.  One iteration of the
cell loop (lines 234-262) acts on the `(p, u)` state: -/
def computeUPStep (M : MassKernel) (g : GridH) (kT : SecondOrderTensorM)
    (fT : ℕ → ℚ) (l : List ℚ) (st : Option (List ℚ × List ℚ)) (c : ℕ) :
    Option (List ℚ × List ℚ) :=
  match st with
  | none => none
  | some pu =>
    let p := pu.1
    let u := pu.2
    let fl := facesOfCell g c
    let ndof := fl.length
    let K := kSub g kT c
    let sgnLoc : List ℤ := fl.map (fun f => g.cellFaces f c)
    let normals : Mat :=
      fl.map (fun f => (g.fNormals f).map (fun x => ((g.cellFaces f c : ℚ)) * x))
    let A := (M K (g.cCenters c) (g.cellVolumes c) (fl.map g.fCenters) normals
      (onesList ndof) (g.cellDiameters c) (weightOf g c)).1
    let B : Mat := List.replicate ndof [(-1 : ℚ)]
    let C := idMat ndof
    let S : ℚ := (matGet (matMul (transposeQ B) (npSolveMat A B)) 0 0)⁻¹
    let fLoc := fT c * g.cellVolumes c
    let lLoc : Mat := fl.map (fun f => [l.getD f 0])
    let pc : ℚ :=
      S * (fLoc - matGet (matMul (transposeQ B) (npSolveMat A (matMul C lLoc))) 0 0)
    let uCol := matScale (-1) (matHadamard (sgnLoc.map (fun s => [(s : ℚ)]))
      (npSolveMat A (matAdd (matScale pc B) (matMul C lLoc))))
    if ndof = 1 then
      some (p.set c pc, u.set (fl.getD 0 0) (matGet uCol 0 0))
    else none

def computeUP (M : MassKernel) (g : GridH) (l : List ℚ) (d : HybridData) :
    Option (NpVal × NpVal) × List String :=
  if g.dim = 0 then
    (match l with
     | [] => none
     | x :: _ => some (NpVal.scalar 0, NpVal.scalar x), [])
  else
    (((List.range g.numCells).foldl (computeUPStep M g (dataK g d) (dataF d) l)
        (some (List.replicate g.numCells (0 : ℚ),
               List.replicate g.numFaces (0 : ℚ)))).map
      (fun pu => (NpVal.vec pu.2, NpVal.vec pu.1)),
     warnList d)

/-- Modelled from the spec: the 0-dimensional point grid used in
mixed-dimensional coupling (the grid class is not under `src/`) — a single
point, a single cell, and no faces, the derived counts consistent with the
incidence shapes (spec §3, §4.2). -/
def pointGrid0 : GridH where
  dim := 0
  numCells := 1
  numFaces := 0
  cellFaces := fun _ _ => 0
  cellVolumes := fun _ => 0
  faceAreas := fun _ => 0
  cellDiameters := fun _ => 0
  cCenters := fun _ => []
  fNormals := fun _ => []
  fCenters := fun _ => []

/-! ### Shape preservation for the assembled system -/

def matShapeOK (n : ℕ) (A : Mat) : Prop := A.length = n ∧ ∀ r ∈ A, r.length = n

lemma foldl_preserve {α β : Type} {P : α → Prop} {step : α → β → α}
    (hstep : ∀ a b, P a → P (step a b)) :
    ∀ (l : List β) (a : α), P a → P (l.foldl step a) := by
  intro l
  induction l with
  | nil => exact fun a ha => ha
  | cons x xs ih => exact fun a ha => ih _ (hstep a x ha)

lemma matAddAt_shape {n : ℕ} {A : Mat} (h : matShapeOK n A) (i j : ℕ) (v : ℚ) :
    matShapeOK n (matAddAt A i j v) := by
  obtain ⟨hlen, hrows⟩ := h
  by_cases hi : i < A.length
  · constructor
    · simp [matAddAt, List.length_set, hlen]
    · intro r hr
      rcases List.mem_or_eq_of_mem_set hr with hr1 | hr1
      · exact hrows r hr1
      · subst hr1
        rw [List.length_set, List.getD_eq_getElem _ _ hi]
        exact hrows _ (List.getElem_mem hi)
  · unfold matAddAt
    rw [List.set_eq_of_length_le (Nat.le_of_not_lt hi)]
    exact ⟨hlen, hrows⟩

lemma scatterCell_shape {n : ℕ} {H : Mat} (h : matShapeOK n H) (fl : List ℕ)
    (L : Mat) : matShapeOK n (scatterCell H fl L) := by
  unfold scatterCell
  refine foldl_preserve (P := matShapeOK n) (fun a b ha => ?_) _ _ h
  refine foldl_preserve (P := matShapeOK n) (fun a2 b2 ha2 => ?_) _ _ ha
  exact matAddAt_shape ha2 _ _ _

lemma addAtList_length (r : List ℚ) (fl : List ℕ) (vals : List ℚ) :
    (addAtList r fl vals).length = r.length := by
  unfold addAtList
  refine foldl_preserve (P := fun r2 : List ℚ => r2.length = r.length)
    (fun a b ha => ?_) _ _ rfl
  show (a.set _ _).length = r.length
  rw [List.length_set]
  exact ha

lemma matrixRhsCore_shape (M : MassKernel) (g : GridH)
    (kT : SecondOrderTensorM) (fT : ℕ → ℚ) :
    matShapeOK g.numFaces (matrixRhsCore M g kT fT).1 ∧
      (matrixRhsCore M g kT fT).2.length = g.numFaces := by
  unfold matrixRhsCore
  refine foldl_preserve
    (P := fun acc : Mat × List ℚ =>
      matShapeOK g.numFaces acc.1 ∧ acc.2.length = g.numFaces)
    (fun acc c hacc => ?_) _ _ ?_
  · refine ⟨scatterCell_shape hacc.1 _ _, ?_⟩
    rw [addAtList_length]
    exact hacc.2
  · refine ⟨⟨?_, ?_⟩, ?_⟩
    · simp [zerosMat]
    · intro r hr
      rw [List.eq_of_mem_replicate hr]
      simp
    · simp

/-! ### The boundary-condition pass -/

lemma range_map_getD {α : Type} (fn : ℕ → α) {i n : ℕ} (h : i < n) (d : α) :
    ((List.range n).map fn).getD i d = fn i := by
  rw [List.getD_eq_getElem _ _ (by simpa using h), List.getElem_map,
    List.getElem_range]

lemma applyBC_dir_entries (g : GridH) (bc : BCRecord) (H : Mat) (rhs : List ℚ)
    {f : ℕ} (hf : f < g.numFaces) (hlab : bc.label f = BCLabel.dir)
    (hrow : (H.getD f []).length = g.numFaces) :
    (∀ j, j < g.numFaces →
      ((applyBC g bc H rhs).1.getD f []).getD j 0 =
        if j = f then infNorm H else 0) ∧
    (applyBC g bc H rhs).2.getD f 0 = infNorm H * bc.dirVal f := by
  have hany : ((List.range g.numFaces).any
      (fun f' => bc.label f' = BCLabel.dir)) = true := by
    rw [List.any_eq_true]
    exact ⟨f, List.mem_range.mpr hf, by simp [hlab]⟩
  have hnd : ¬ bc.label f = BCLabel.neu := by
    rw [hlab]
    intro hx
    cases hx
  have hHd : ∀ j, j < g.numFaces →
      (((List.range g.numFaces).map (fun i =>
        if bc.label i = BCLabel.dir then
          ((((List.range g.numFaces).map (fun i' =>
            if bc.label i' = BCLabel.dir then (H.getD i' []).map (fun x => x * 0)
            else H.getD i' [])).getD i []).set i (infNorm H))
        else (((List.range g.numFaces).map (fun i' =>
          if bc.label i' = BCLabel.dir then (H.getD i' []).map (fun x => x * 0)
          else H.getD i' [])).getD i []))).getD f []).getD j 0 =
        if j = f then infNorm H else 0 := by
    intro j hj
    rw [range_map_getD _ hf, if_pos hlab, range_map_getD _ hf, if_pos hlab]
    have hlen : j < (((H.getD f []).map (fun x => x * 0)).set f (infNorm H)).length := by
      rw [List.length_set, List.length_map, hrow]
      exact hj
    rw [List.getD_eq_getElem _ _ hlen, List.getElem_set]
    by_cases hjf : j = f
    · subst hjf
      simp
    · rw [if_neg (fun hh => hjf hh.symm), if_neg hjf, List.getElem_map]
      exact mul_zero _
  have hr1 : (((List.range g.numFaces).map (fun f' =>
      if bc.label f' = BCLabel.dir then infNorm H * bc.dirVal f'
      else rhs.getD f' 0)).getD f 0) = infNorm H * bc.dirVal f := by
    rw [range_map_getD _ hf, if_pos hlab]
  unfold applyBC
  simp only [hany, if_true]
  by_cases hneu : ((List.range g.numFaces).any
      (fun f' => bc.label f' = BCLabel.neu)) = true
  · simp only [hneu, if_true]
    refine ⟨hHd, ?_⟩
    rw [range_map_getD _ hf, if_neg hnd]
    exact hr1
  · simp only [hneu, if_false]
    exact ⟨hHd, hr1⟩

lemma find_unique {α : Type} {p : α → Bool} {l : List α} {a : α}
    (ha : a ∈ l) (hpa : p a = true) (huniq : ∀ b ∈ l, p b = true → b = a) :
    l.find? p = some a := by
  induction l with
  | nil => cases ha
  | cons x xs ih =>
    by_cases hx : p x = true
    · have hxa : x = a := huniq x (List.mem_cons_self x xs) hx
      subst hxa
      simp [List.find?_cons, hx]
    · have hax : a ≠ x := fun h => hx (h ▸ hpa)
      have ha' : a ∈ xs := by
        rcases List.mem_cons.mp ha with h | h
        · exact absurd h hax
        · exact h
      have hx' : p x = false := by
        cases hpx : p x
        · rfl
        · exact absurd hpx hx
      rw [List.find?_cons, hx']
      exact ih ha' (fun b hb hpb => huniq b (List.mem_cons_of_mem x hb) hpb)

lemma findTriples_first (g : GridH) {f c0 : ℕ} (hf : f < g.numFaces)
    (hc0 : c0 < g.numCells) (hnz : g.cellFaces f c0 ≠ 0)
    (huniq : ∀ c, c < g.numCells → g.cellFaces f c ≠ 0 → c = c0) :
    (findTriples g).find? (fun tr => tr.1 = f) =
      some (f, c0, g.cellFaces f c0) := by
  apply find_unique
  · unfold findTriples
    rw [List.mem_flatMap]
    refine ⟨c0, List.mem_range.mpr hc0, ?_⟩
    rw [List.mem_map]
    refine ⟨f, ?_, rfl⟩
    unfold facesOfCell
    rw [List.mem_filter]
    exact ⟨List.mem_range.mpr hf, by simpa using hnz⟩
  · simp
  · rintro ⟨f', c', s'⟩ hmem hp
    have hf' : f' = f := by simpa using hp
    subst f'
    unfold findTriples at hmem
    rw [List.mem_flatMap] at hmem
    obtain ⟨c, hc, hmem2⟩ := hmem
    rw [List.mem_map] at hmem2
    obtain ⟨f2, hf2, heq⟩ := hmem2
    obtain ⟨h1, h2, h3⟩ : f2 = f ∧ c = c' ∧ g.cellFaces f2 c = s' := by
      refine ⟨congrArg Prod.fst heq, ?_, ?_⟩
      · exact congrArg (fun q => q.2.1) heq
      · exact congrArg (fun q => q.2.2) heq
    subst f2
    subst h2
    subst h3
    unfold facesOfCell at hf2
    rw [List.mem_filter] at hf2
    have hnz2 : g.cellFaces f c ≠ 0 := by simpa using hf2.2
    have hcc : c = c0 := huniq c (List.mem_range.mp hc) hnz2
    subst hcc
    rfl

lemma applyBC_neu_rhs (g : GridH) (bc : BCRecord) (H : Mat) (rhs : List ℚ)
    {f c0 : ℕ} (hf : f < g.numFaces) (hlab : bc.label f = BCLabel.neu)
    (hc0 : c0 < g.numCells) (hnz : g.cellFaces f c0 ≠ 0)
    (huniq : ∀ c, c < g.numCells → g.cellFaces f c ≠ 0 → c = c0) :
    (applyBC g bc H rhs).2.getD f 0 =
      rhs.getD f 0 + (g.cellFaces f c0 : ℚ) * bc.neuVal f * g.faceAreas f := by
  have hany : ((List.range g.numFaces).any
      (fun f' => bc.label f' = BCLabel.neu)) = true := by
    rw [List.any_eq_true]
    exact ⟨f, List.mem_range.mpr hf, by simp [hlab]⟩
  have hndir : ¬ bc.label f = BCLabel.dir := by
    rw [hlab]
    intro hx
    cases hx
  have hfind := findTriples_first g hf hc0 hnz huniq
  unfold applyBC
  simp only [hany, if_true]
  by_cases hdir : ((List.range g.numFaces).any
      (fun f' => bc.label f' = BCLabel.dir)) = true
  · simp only [hdir, if_true]
    rw [range_map_getD _ hf, if_pos hlab, range_map_getD _ hf, if_neg hndir,
      hfind]
    rfl
  · simp only [hdir, if_false]
    rw [range_map_getD _ hf, if_pos hlab, hfind]
    rfl

/-! ### Claims about the boundary-condition application -/

/-- Claim C2 (confirmed): after boundary-condition application in
`matrix_rhs`, every Dirichlet row of `H` is zero except for the diagonal
entry, which equals the infinity norm of the assembled (pre-boundary) matrix,
and the corresponding right-hand-side entry is that norm times the prescribed
Dirichlet value.  The row is zeroed first and the diagonal set afterwards, on
the norm taken before any row was modified (see `applyBC`). -/
theorem c2_dirichlet_rows (M : MassKernel) (g : GridH) (d : HybridData)
    (b : BCRecord) (f : ℕ) (hbc : d.bc = some b) (hdim : g.dim ≠ 0)
    (hf : f < g.numFaces) (hlab : b.label f = BCLabel.dir) :
    (∀ j, j < g.numFaces →
      (((matrixRhs M g d).1.1).getD f []).getD j 0 =
        if j = f then infNorm (matrixRhsCore M g (dataK g d) (dataF d)).1
        else 0) ∧
    ((matrixRhs M g d).1.2).getD f 0 =
      infNorm (matrixRhsCore M g (dataK g d) (dataF d)).1 * b.dirVal f := by
  have hr : (matrixRhs M g d).1 =
      applyBC g b (matrixRhsCore M g (dataK g d) (dataF d)).1
        (matrixRhsCore M g (dataK g d) (dataF d)).2 := by
    unfold matrixRhs
    rw [if_neg hdim, hbc]
  rw [hr]
  obtain ⟨⟨hlen, hrows⟩, _⟩ := matrixRhsCore_shape M g (dataK g d) (dataF d)
  have hrow : ((matrixRhsCore M g (dataK g d) (dataF d)).1.getD f []).length =
      g.numFaces := by
    rw [List.getD_eq_getElem _ _ (by rw [hlen]; exact hf)]
    exact hrows _ (List.getElem_mem _)
  exact applyBC_dir_entries g b _ _ hf hlab hrow

/-- Claim C4 (confirmed): for a Neumann boundary face with a unique cell-face
incidence entry, `matrix_rhs` adds `sign · (prescribed flux) · (face area)` to
the cell-loop right-hand side at that face, the sign taken from that unique
incidence entry.  The hypothesis `hcover` records that every face appears in
`cell_faces` (true of all built grids): it is what aligns the source's
re-indexed `sgn` array (one entry per unique face of `sps.find`) with the
boolean mask `bc.is_neu` over all faces. -/
theorem c4_neumann_rhs (M : MassKernel) (g : GridH) (d : HybridData)
    (b : BCRecord) (f c0 : ℕ) (hbc : d.bc = some b) (hdim : g.dim ≠ 0)
    (hcover : ∀ f', f' < g.numFaces →
      ∃ c ∈ List.range g.numCells, g.cellFaces f' c ≠ 0)
    (hf : f < g.numFaces) (hlab : b.label f = BCLabel.neu)
    (hc0 : c0 < g.numCells) (hnz : g.cellFaces f c0 ≠ 0)
    (huniq : ∀ c, c < g.numCells → g.cellFaces f c ≠ 0 → c = c0) :
    ((matrixRhs M g d).1.2).getD f 0 =
      (matrixRhsCore M g (dataK g d) (dataF d)).2.getD f 0 +
        (g.cellFaces f c0 : ℚ) * b.neuVal f * g.faceAreas f := by
  have hr : (matrixRhs M g d).1 =
      applyBC g b (matrixRhsCore M g (dataK g d) (dataF d)).1
        (matrixRhsCore M g (dataK g d) (dataF d)).2 := by
    unfold matrixRhs
    rw [if_neg hdim, hbc]
  rw [hr]
  exact applyBC_neu_rhs g b _ _ hf hlab hc0 hnz huniq

/-! ### Concrete witnesses for the boundary-condition claims -/

/-- A trivial external mass kernel (never evaluated by the proofs that use
it): it returns identity matrices of the local size. -/
def kernelW : MassKernel :=
  fun _K _cc _vol _fc _normals w _diam _wt => (idMat w.length, idMat w.length)

/-- One 1-dimensional cell with two boundary faces. -/
def gridW : GridH where
  dim := 1
  numCells := 1
  numFaces := 2
  cellFaces := fun f c => if c = 0 then (if f = 0 then -1 else if f = 1 then 1 else 0) else 0
  cellVolumes := fun _ => 1
  faceAreas := fun _ => 1
  cellDiameters := fun _ => 1
  cCenters := fun _ => [(1 : ℚ) / 2]
  fNormals := fun _ => [1]
  fCenters := fun f => [if f = 0 then 0 else 1]

def bcW : BCRecord where
  label := fun f => if f = 0 then BCLabel.dir else BCLabel.neu
  dirVal := fun _ => 3
  neuVal := fun _ => 2

def dataW : HybridData where
  k := some (secondOrderTensorM 1 (fun _ => 1))
  f := some (fun _ => 0)
  bc := some bcW

/-- Witness for C2 at the Dirichlet face `0` of the one-cell grid. -/
theorem c2_witness :
    dataW.bc = some bcW ∧ gridW.dim ≠ 0 ∧ 0 < gridW.numFaces ∧
    bcW.label 0 = BCLabel.dir ∧
    ((matrixRhs kernelW gridW dataW).1.2).getD 0 0 =
      infNorm (matrixRhsCore kernelW gridW (dataK gridW dataW) (dataF dataW)).1 *
        bcW.dirVal 0 :=
  ⟨rfl, by decide, by decide, by decide,
    (c2_dirichlet_rows kernelW gridW dataW bcW 0 rfl (by decide) (by decide)
      (by decide)).2⟩

/-- Witness for C4 at the Neumann face `1` of the one-cell grid (its unique
incidence entry has sign `+1`). -/
theorem c4_witness :
    dataW.bc = some bcW ∧ bcW.label 1 = BCLabel.neu ∧
    gridW.cellFaces 1 0 ≠ 0 ∧
    ((matrixRhs kernelW gridW dataW).1.2).getD 1 0 =
      (matrixRhsCore kernelW gridW (dataK gridW dataW) (dataF dataW)).2.getD 1 0 +
        (gridW.cellFaces 1 0 : ℚ) * bcW.neuVal 1 * gridW.faceAreas 1 :=
  ⟨rfl, by decide, by decide,
    c4_neumann_rhs kernelW gridW dataW bcW 1 0 rfl (by decide) (by decide)
      (by decide) (by decide) (by decide) (by decide) (by decide)⟩

/-! ### Claims about the degenerate 0-dimensional mesh -/

/-- Claim C3 (code bug): for the spec-modelled 0-dimensional point grid
(single point, no faces, so `ndof(g) = num_faces = 0`), `matrix_rhs` returns
`sps.identity(0)` — a 0×0 matrix — paired with the length-1 zero right-hand
side `np.zeros(1)`, regardless of the data dictionary; the 1×1 identity the
claim describes (and which the length-1 rhs and `computeUP`'s `l[0]` are
built for) is not what the code produces. -/
theorem c3_zero_dim_matrix (M : MassKernel) (d : HybridData) :
    (matrixRhs M pointGrid0 d).1.1 = idMat 0 ∧
    (matrixRhs M pointGrid0 d).1.2 = [(0 : ℚ)] ∧
    (matrixRhs M pointGrid0 d).1.1.length = 0 ∧
    (matrixRhs M pointGrid0 d).1.2.length = 1 ∧
    idMat 0 ≠ idMat 1 :=
  ⟨rfl, rfl, rfl, rfl, by decide⟩

/-- A data dictionary used by concrete 0-dimensional evaluations. -/
def dataW8 : HybridData where
  k := none
  f := none
  bc := none

/-- Counterexample for C8: on the 0-dimensional point grid the velocity
component `computeUP` returns is the python scalar `0`, not a zero-length
array. -/
theorem c8_counterexample :
    (computeUP kernelW pointGrid0 [5] dataW8).1 =
      some (NpVal.scalar 0, NpVal.scalar 5) ∧
    (computeUP kernelW pointGrid0 [5] dataW8).1 ≠
      some (NpVal.vec [], NpVal.scalar 5) :=
  ⟨rfl, by decide⟩

/-- Claim C8 (corrected): for a 0-dimensional mesh, `computeUP` returns the
scalar `0` as velocity (not a zero-length array) and a pressure equal to the
single entry of the input hybrid vector, for every input data dictionary. -/
theorem c8_zero_dim_recover (M : MassKernel) (g : GridH) (d : HybridData)
    (x : ℚ) (rest : List ℚ) (hdim : g.dim = 0) :
    (computeUP M g (x :: rest) d).1 = some (NpVal.scalar 0, NpVal.scalar x) ∧
    (computeUP M g (x :: rest) d).2 = [] := by
  unfold computeUP
  rw [if_pos hdim]
  exact ⟨rfl, rfl⟩

/-- Witness for C8 on the point grid with hybrid vector `[5]`. -/
theorem c8_witness :
    pointGrid0.dim = 0 ∧
    (computeUP kernelW pointGrid0 ((5 : ℚ) :: []) dataW).1 =
      some (NpVal.scalar 0, NpVal.scalar 5) :=
  ⟨rfl, (c8_zero_dim_recover kernelW pointGrid0 dataW 5 [] rfl).1⟩

/-! ### Claims about default substitution and the recovery loop -/

lemma foldl_none_of_none {β γ : Type} (G : Option γ → β → Option γ)
    (hG : ∀ b, G none b = none) : ∀ l : List β, l.foldl G none = none := by
  intro l
  induction l with
  | nil => rfl
  | cons x xs ih =>
    rw [List.foldl_cons, hG]
    exact ih

lemma computeUPLoop_none (M : MassKernel) (g : GridH)
    (hpos : 0 < g.numCells)
    (hcells : ∀ c, c < g.numCells → 2 ≤ (facesOfCell g c).length)
    (kT : SecondOrderTensorM) (fT : ℕ → ℚ) (l : List ℚ)
    (init : List ℚ × List ℚ) :
    (List.range g.numCells).foldl (computeUPStep M g kT fT l) (some init) =
      none := by
  obtain ⟨m, hm⟩ : ∃ m, g.numCells = m + 1 := ⟨g.numCells - 1, by omega⟩
  have hlen : (facesOfCell g 0).length ≠ 1 := by
    have := hcells 0 hpos
    omega
  have h0 : computeUPStep M g kT fT l (some init) 0 = none := by
    simp only [computeUPStep]
    rw [if_neg hlen]
  rw [hm, List.range_succ_eq_map, List.foldl_cons, h0]
  exact foldl_none_of_none _ (fun b => rfl) _

/-- Counterexample for C6: on the one-cell grid of dimension 1 (every mesh of
dimension ≥ 1 has a cell with at least two faces), calling `computeUP` with
the permeability entry `'k'` absent fails — the `(ndof, 1)`-shaped velocity
write raises before the first cell completes, so the recover half of the
claim's "does not fail" is false as stated. -/
theorem c6_counterexample :
    1 ≤ gridW.dim ∧
    (computeUP kernelW gridW [0, 0]
      { k := none, f := some (fun _ => 0), bc := none }).1 = none := by
  constructor
  · decide
  · have h := computeUPLoop_none kernelW gridW (by decide)
      (by decide)
      (dataK gridW { k := none, f := some (fun _ => 0), bc := none })
      (dataF { k := none, f := some (fun _ => 0), bc := none }) [0, 0]
      (List.replicate gridW.numCells (0 : ℚ),
       List.replicate gridW.numFaces (0 : ℚ))
    unfold computeUP
    rw [if_neg (by decide), h]
    rfl

/-- Claim C6 (corrected): for a mesh of dimension at least 1, a missing
permeability/source entry is replaced by the unit isotropic tensor / zero
source with a diagnostic warning, and both `matrix_rhs` and `computeUP` behave
exactly as when those defaults are passed explicitly; but `computeUP` itself
then fails on every such mesh (each cell having at least two faces) in the
velocity write, independently of whether the entries were supplied. -/
theorem c6_default_substitution (M : MassKernel) (g : GridH)
    (bcOpt : Option BCRecord) (hdim : 1 ≤ g.dim) :
    (∀ fOpt : Option (ℕ → ℚ),
      (matrixRhs M g ⟨none, fOpt, bcOpt⟩).1 =
        (matrixRhs M g
          ⟨some (secondOrderTensorM g.dim (fun _ => 1)), fOpt, bcOpt⟩).1) ∧
    (∀ kOpt : Option SecondOrderTensorM,
      (matrixRhs M g ⟨kOpt, none, bcOpt⟩).1 =
        (matrixRhs M g ⟨kOpt, some (fun _ => 0), bcOpt⟩).1) ∧
    (matrixRhs M g ⟨none, none, bcOpt⟩).2 = [permWarning, srcWarning] ∧
    (∀ (l : List ℚ) (fOpt : Option (ℕ → ℚ)),
      (computeUP M g l ⟨none, fOpt, bcOpt⟩).1 =
        (computeUP M g l
          ⟨some (secondOrderTensorM g.dim (fun _ => 1)), fOpt, bcOpt⟩).1) ∧
    (∀ (l : List ℚ) (kOpt : Option SecondOrderTensorM),
      (computeUP M g l ⟨kOpt, none, bcOpt⟩).1 =
        (computeUP M g l ⟨kOpt, some (fun _ => 0), bcOpt⟩).1) ∧
    (∀ l : List ℚ,
      (computeUP M g l ⟨none, none, bcOpt⟩).2 = [permWarning, srcWarning]) ∧
    (0 < g.numCells → (∀ c, c < g.numCells → 2 ≤ (facesOfCell g c).length) →
      ∀ (l : List ℚ) (d : HybridData), (computeUP M g l d).1 = none) := by
  have hne : g.dim ≠ 0 := by omega
  refine ⟨?_, ?_, ?_, ?_, ?_, ?_, ?_⟩
  · intro fOpt
    unfold matrixRhs
    rw [if_neg hne, if_neg hne]
    rfl
  · intro kOpt
    unfold matrixRhs
    rw [if_neg hne, if_neg hne]
    rfl
  · unfold matrixRhs
    rw [if_neg hne]
    rfl
  · intro l fOpt
    unfold computeUP
    rw [if_neg hne, if_neg hne]
    rfl
  · intro l kOpt
    unfold computeUP
    rw [if_neg hne, if_neg hne]
    rfl
  · intro l
    unfold computeUP
    rw [if_neg hne]
    rfl
  · intro hpos hcells l d
    unfold computeUP
    rw [if_neg hne,
      computeUPLoop_none M g hpos hcells (dataK g d) (dataF d) l _]
    rfl

/-- Witness for C6 on the one-cell grid, permeability entry absent. -/
theorem c6_witness :
    1 ≤ gridW.dim ∧
    (matrixRhs kernelW gridW ⟨none, some (fun _ => 0), some bcW⟩).1 =
      (matrixRhs kernelW gridW
        ⟨some (secondOrderTensorM gridW.dim (fun _ => 1)),
         some (fun _ => 0), some bcW⟩).1 :=
  ⟨by decide,
    (c6_default_substitution kernelW gridW (some bcW) (by decide)).1
      (some (fun _ => 0))⟩

/-- Two triangles sharing the interior face `2` (with opposite incidence
signs), the setting of the velocity-recovery claim. -/
def gridTwo : GridH where
  dim := 2
  numCells := 2
  numFaces := 5
  cellFaces := fun f c =>
    if c = 0 then (if f = 0 then 1 else if f = 1 then 1 else if f = 2 then 1 else 0)
    else if c = 1 then (if f = 2 then -1 else if f = 3 then 1 else if f = 4 then 1 else 0)
    else 0
  cellVolumes := fun _ => 1
  faceAreas := fun _ => 1
  cellDiameters := fun _ => 1
  cCenters := fun _ => [0, 0]
  fNormals := fun _ => [1, 0]
  fCenters := fun _ => [0, 0]

def dataFull : HybridData where
  k := some (secondOrderTensorM 2 (fun _ => 1))
  f := some (fun _ => 1)
  bc := none

/-- Claim C10 (code bug): on the two-triangle mesh with the interior face `2`,
`computeUP` does not return any velocity at all: the write
`u[faces_loc] = -np.multiply(sgn_loc, solve(...))` assigns an `(ndof, 1)`
array into the `(ndof,)` selection and numpy raises `ValueError` at the first
cell (`ndof = 3`), with permeability and source supplied explicitly. -/
theorem c10_velocity_write_raises :
    (computeUP kernelW gridTwo [0, 0, 0, 0, 0] dataFull).1 = none := by
  have h := computeUPLoop_none kernelW gridTwo (by decide) (by decide)
    (dataK gridTwo dataFull) (dataF dataFull) [0, 0, 0, 0, 0]
    (List.replicate gridTwo.numCells (0 : ℚ),
     List.replicate gridTwo.numFaces (0 : ℚ))
  unfold computeUP
  rw [if_neg (by decide), h]
  rfl

end PorePy
